import Mathlib

/-!
Verification development for a push-to-talk voice capture and transcription
utility (`voice.py`).  The program records microphone audio into a queue of
chunks while a key is held, and on release drains the queue, quantizes the
waveform to 16-bit samples, writes a temporary WAV file, submits it to a
remote transcription service, prints the result, and deletes the file.

Shallow embedding: audio samples are rationals, chunks are lists of samples,
the frame buffer (`record_q`) is modelled as a list in arrival order, and the
effectful threads are modelled as pure functions producing event traces.
-/

namespace Voice

/-- One audio chunk: the samples delivered by a single audio-callback
invocation (`indata.copy()` in `callback`). -/
abbrev Chunk := List ℚ

/-! ### Frame buffer (`record_q : queue.Queue`) -/

/-- `record_q.put(chunk)`: append a chunk at the tail of the queue. -/
def push (q : List Chunk) (c : Chunk) : List Chunk := q ++ [c]

/-- Push a sequence of chunks in order (repeated `record_q.put`). -/
def pushAll (q : List Chunk) (cs : List Chunk) : List Chunk := cs.foldl push q

/-- The gather loop of `transcriber_thread`:
`while not record_q.empty(): frames.append(record_q.get())`.
Accumulates drained chunks in `frames`; returns the collected frames and the
queue left behind (empty once the loop exits). -/
def drainLoop : List Chunk → List Chunk → List Chunk × List Chunk
  | frames, [] => (frames, [])
  | frames, c :: rest => drainLoop (frames ++ [c]) rest

/-- `drain_all`: run the gather loop starting from an empty `frames` list. -/
def drain_all (q : List Chunk) : List Chunk × List Chunk := drainLoop [] q

/-! ### 16-bit quantization (`np.int16(np.clip(audio_f32, -1, 1) * 32767)`) -/

/-- `np.clip(x, -1, 1)`: clamp a sample into `[-1, 1]`. -/
def clip (x : ℚ) : ℚ := min (max x (-1)) 1

/-- Conversion of a float to a machine integer truncates toward zero
(C-cast semantics used by `np.int16` on in-range values). -/
def truncToZero (y : ℚ) : ℤ := if 0 ≤ y then ⌊y⌋ else ⌈y⌉

/-- One sample of `np.int16(np.clip(audio_f32, -1, 1) * 32767)`. -/
def quantize (x : ℚ) : ℤ := truncToZero (clip x * 32767)

/-! ### Peak (`float(np.abs(audio_f32).max())`) -/

/-- Peak absolute sample magnitude of the concatenated waveform.  All mapped
values are nonnegative, so folding `max` from `0` agrees with `np.max` on any
nonempty array. -/
def peak (w : List ℚ) : ℚ := (w.map (fun x => |x|)).foldl max 0

/-! ### Observable events of the worker threads -/

/-- Observable side effects of `callback` and `transcriber_thread`, in
program order.  `warnStatus`/`warnOpenAIError` go to standard error, the
`print*` events to standard output. -/
inductive Event where
  | warnStatus (s : String)
  | streamStopped
  | printNoAudio
  | printPeak (p : ℚ)
  | writeWav (samples : List ℤ)
  | transcribeCall (samples : List ℤ)
  | printTranscript (t : String)
  | warnOpenAIError (e : String)
  | deleteWav
  deriving DecidableEq, Repr

/-- The audio callback: warn on a non-falsy `status`, and push the delivered
chunk only while `is_recording` is set.  Returns the emitted events and the
updated queue. -/
def callback (status : Option String) (is_recording : Bool) (q : List Chunk)
    (indata : Chunk) : List Event × List Chunk :=
  ((match status with
    | some s => [Event.warnStatus s]
    | none => []),
   if is_recording then push q indata else q)

/-- Outcome of the remote transcription call
(`client.audio.transcriptions.create`): the transcript text on success, or an
`OpenAIError` message on failure. -/
abbrev ServiceResult := Except String String

/-- `transcriber_thread`: stop/close the stream, drain the queue, and either
report "(no audio captured)" or build the waveform, print the peak, write the
temporary WAV, call the service inside `try/except OpenAIError/finally`, and
delete the WAV.  The result is `Except.ok` exactly when no exception escapes
the thread body; the trace of events is paired with the queue left behind. -/
def transcriber_thread (stream : Option Unit) (q : List Chunk)
    (svc : ServiceResult) : Except String (List Event × List Chunk) :=
  match stream with
  | none => Except.ok ([], q)
  | some _ =>
    let (frames, q') := drain_all q
    if frames.isEmpty then
      Except.ok ([Event.streamStopped, Event.printNoAudio], q')
    else
      let audio_f32 := frames.flatten
      let p := peak audio_f32
      let int16 := audio_f32.map quantize
      let callEvents :=
        match svc with
        | Except.ok t => [Event.transcribeCall int16, Event.printTranscript t]
        | Except.error e => [Event.transcribeCall int16, Event.warnOpenAIError e]
      Except.ok
        ([Event.streamStopped, Event.printPeak p, Event.writeWav int16]
          ++ callEvents ++ [Event.deleteWav], q')

/-! ### Keyboard hooks (`on_press` / `on_release`) -/

/-- A key event's key: the designated SPACE key or any other key. -/
inductive Key where
  | space
  | other
  deriving DecidableEq, Repr

/-- `on_press`: on SPACE while not recording, set the flag and spawn the
recorder thread.  Returns the new flag and whether a recorder was spawned. -/
def on_press (key : Key) (is_recording : Bool) : Bool × Bool :=
  if key = Key.space ∧ is_recording = false then (true, true)
  else (is_recording, false)

/-- `on_release`: on SPACE while recording, clear the flag and spawn the
transcriber thread.  Returns the new flag and whether a transcriber was
spawned. -/
def on_release (key : Key) (is_recording : Bool) : Bool × Bool :=
  if key = Key.space ∧ is_recording = true then (false, true)
  else (is_recording, false)

/-- A key event delivered by the global keyboard listener. -/
inductive KeyEvent where
  | press (k : Key)
  | release (k : Key)
  deriving DecidableEq, Repr

/-- Dispatch one key event to the matching hook. -/
def handleEvent (is_recording : Bool) : KeyEvent → Bool × Bool × Bool
  | KeyEvent.press k =>
    let (r, s) := on_press k is_recording
    (r, s, false)
  | KeyEvent.release k =>
    let (r, s) := on_release k is_recording
    (r, false, s)

/-- Process a sequence of key events, counting spawned recorder threads
(`starts`) and spawned transcriber threads (`stops`). -/
def runEvents : Bool → List KeyEvent → Bool × Nat × Nat
  | r, [] => (r, 0, 0)
  | r, e :: es =>
    let (r', st, sp) := handleEvent r e
    let (rf, starts, stops) := runEvents r' es
    (rf, (if st then 1 else 0) + starts, (if sp then 1 else 0) + stops)

/-! ### Helper lemmas -/

/-- The gather loop returns the accumulated frames followed by the queued
chunks, and leaves the queue empty. -/
lemma drainLoop_eq (q : List Chunk) : ∀ acc, drainLoop acc q = (acc ++ q, []) := by
  induction q with
  | nil => intro acc; simp [drainLoop]
  | cons c rest ih =>
    intro acc
    rw [drainLoop, ih (acc ++ [c])]
    simp

/-- Draining returns the queued chunks in order and empties the queue. -/
lemma drain_all_eq (q : List Chunk) : drain_all q = (q, []) := by
  simpa using drainLoop_eq q []

/-- Pushing a sequence of chunks appends them in order. -/
lemma pushAll_eq (cs : List Chunk) : ∀ q, pushAll q cs = q ++ cs := by
  induction cs with
  | nil => intro q; simp [pushAll]
  | cons c rest ih =>
    intro q
    have h : pushAll q (c :: rest) = pushAll (push q c) rest := rfl
    rw [h, ih (push q c), push]
    simp

/-- The clipped value lies in `[-1, 1]`. -/
lemma clip_mem_Icc (x : ℚ) : -1 ≤ clip x ∧ clip x ≤ 1 := by
  unfold clip
  constructor
  · exact le_min (le_max_right x (-1)) (by norm_num)
  · exact min_le_right _ 1

/-- Clipping is the identity on `[-1, 1]`. -/
lemma clip_eq_self (x : ℚ) (h : |x| ≤ 1) : clip x = x := by
  rw [abs_le] at h
  unfold clip
  rw [max_eq_left h.1, min_eq_left h.2]

/-- Truncation toward zero moves a value by strictly less than one. -/
lemma truncToZero_error (y : ℚ) : |y - (truncToZero y : ℚ)| < 1 := by
  unfold truncToZero
  by_cases h : 0 ≤ y
  · rw [if_pos h, abs_lt]
    constructor
    · have := Int.floor_le y
      linarith
    · have := Int.sub_one_lt_floor y
      linarith
  · rw [if_neg h, abs_lt]
    constructor
    · have := Int.ceil_lt_add_one y
      linarith
    · have := Int.le_ceil y
      linarith

/-- Truncation toward zero keeps a value inside a symmetric integer bound. -/
lemma truncToZero_bounds (y : ℚ) (n : ℤ) (hn : 0 ≤ n) (h : |y| ≤ (n : ℚ)) :
    -n ≤ truncToZero y ∧ truncToZero y ≤ n := by
  rw [abs_le] at h
  unfold truncToZero
  by_cases h0 : 0 ≤ y
  · rw [if_pos h0]
    constructor
    · have h1 : (0 : ℤ) ≤ ⌊y⌋ := Int.floor_nonneg.mpr h0
      omega
    · have h2 : ⌊y⌋ ≤ ⌊(n : ℚ)⌋ := Int.floor_le_floor h.2
      simpa using h2
  · rw [if_neg h0]
    constructor
    · have h2 : ⌈((-n : ℤ) : ℚ)⌉ ≤ ⌈y⌉ := Int.ceil_le_ceil (by push_cast; linarith [h.1])
      rwa [Int.ceil_intCast] at h2
    · have h1 : ⌈y⌉ ≤ (0 : ℤ) := Int.ceil_le.mpr (by exact_mod_cast le_of_not_le h0)
      omega

/-- Folding `max` never goes below the initial accumulator. -/
lemma foldl_max_init_le (l : List ℚ) : ∀ a : ℚ, a ≤ l.foldl max a := by
  induction l with
  | nil => intro a; simp
  | cons b l ih =>
    intro a
    calc a ≤ max a b := le_max_left a b
    _ ≤ (b :: l).foldl max a := by simpa [List.foldl_cons] using ih (max a b)

/-- Every list element is bounded by the `max`-fold. -/
lemma le_foldl_max_of_mem (l : List ℚ) :
    ∀ (a x : ℚ), x ∈ l → x ≤ l.foldl max a := by
  induction l with
  | nil => intro a x hx; cases hx
  | cons b l ih =>
    intro a x hx
    rcases List.mem_cons.mp hx with h | h
    · subst h
      calc x ≤ max a x := le_max_right a x
      _ ≤ (x :: l).foldl max a := by simpa [List.foldl_cons] using foldl_max_init_le l (max a x)
    · simpa [List.foldl_cons] using ih (max a b) x h

/-- The `max`-fold equals the accumulator or some list element. -/
lemma foldl_max_mem (l : List ℚ) :
    ∀ a : ℚ, l.foldl max a = a ∨ l.foldl max a ∈ l := by
  induction l with
  | nil => intro a; left; rfl
  | cons b l ih =>
    intro a
    rcases ih (max a b) with h | h
    · rcases max_cases a b with ⟨hm, -⟩ | ⟨hm, -⟩
      · left; simpa [List.foldl_cons, hm] using h
      · right; rw [List.foldl_cons, h, hm]; exact List.mem_cons_self b l
    · right
      rw [List.foldl_cons]
      exact List.mem_cons_of_mem b h

/-- `peak` bounds every absolute sample value, and on a nonempty waveform it
is attained by some sample. -/
lemma peak_is_max (w : List ℚ) :
    (∀ x ∈ w, |x| ≤ peak w) ∧ (w ≠ [] → ∃ x ∈ w, peak w = |x|) := by
  constructor
  · intro x hx
    exact le_foldl_max_of_mem _ 0 |x| (List.mem_map_of_mem _ hx)
  · intro hw
    rcases foldl_max_mem (w.map fun x => |x|) 0 with h | h
    · cases w with
      | nil => exact absurd rfl hw
      | cons b l =>
        refine ⟨b, List.mem_cons_self b l, le_antisymm ?_ ?_⟩
        · rw [peak, h]; exact abs_nonneg b
        · exact le_foldl_max_of_mem _ 0 |b| (List.mem_map_of_mem _ (List.mem_cons_self b l))
    · rcases List.mem_map.mp h with ⟨x, hx, hpx⟩
      exact ⟨x, hx, hpx.symm⟩

/-- Whether an event is an invocation of the remote transcription service. -/
def isTranscribeCall : Event → Bool
  | Event.transcribeCall _ => true
  | _ => false

/-- Explicit trace of `transcriber_thread` for a session that drained at
least one chunk: stop, print peak, write the WAV, call the service (printing
the transcript on success or a warning on failure), delete the WAV. -/
lemma transcriber_thread_nonempty (q : List Chunk) (svc : ServiceResult)
    (hq : q ≠ []) :
    transcriber_thread (some ()) q svc =
      Except.ok
        ([Event.streamStopped, Event.printPeak (peak q.flatten),
          Event.writeWav (q.flatten.map quantize)]
          ++ (match svc with
              | Except.ok t =>
                [Event.transcribeCall (q.flatten.map quantize),
                 Event.printTranscript t]
              | Except.error e =>
                [Event.transcribeCall (q.flatten.map quantize),
                 Event.warnOpenAIError e])
          ++ [Event.deleteWav], []) := by
  cases q with
  | nil => exact absurd rfl hq
  | cons c rest =>
    simp only [transcriber_thread, drain_all_eq, List.isEmpty_cons]
    rfl

/-! ### Claim theorems -/

/-- C1: draining the frame buffer after pushing any sequence of chunks in
order returns exactly those chunks in push order and leaves the buffer empty,
and a second drain on the now-empty buffer returns the empty sequence. -/
theorem drain_returns_pushed_chunks (cs : List Chunk) :
    drain_all (pushAll [] cs) = (cs, []) ∧
    drain_all (drain_all (pushAll [] cs)).2 = ([], []) := by
  rw [pushAll_eq cs []]
  simp [drain_all_eq]

/-- C3: when the stop handler drains zero chunks (the queue is empty), the
thread reports "(no audio captured)" and returns: for every possible service
outcome, no WAV is written, the transcription service is not called, and no
temporary file is deleted. -/
theorem empty_session_no_transcription (svc : ServiceResult) :
    transcriber_thread (some ()) [] svc
      = Except.ok ([Event.streamStopped, Event.printNoAudio], []) ∧
    ∀ evs q', transcriber_thread (some ()) [] svc = Except.ok (evs, q') →
      Event.printNoAudio ∈ evs ∧
      (∀ s, Event.writeWav s ∉ evs) ∧
      (∀ s, Event.transcribeCall s ∉ evs) ∧
      Event.deleteWav ∉ evs := by
  refine ⟨rfl, ?_⟩
  intro evs q' h
  simp only [transcriber_thread, drain_all, drainLoop, List.isEmpty_nil, if_true,
    Except.ok.injEq, Prod.mk.injEq] at h
  obtain ⟨hevs, -⟩ := h
  subst hevs
  refine ⟨by simp, by simp, by simp, by simp⟩

/-- C6: the key-state controller ignores a SPACE press while already
recording, a SPACE release while idle, and any event for another key (no
state change, no worker spawned); each idle-press spawns exactly one recorder
and each active-release exactly one transcriber, so pressing twice in a row
from idle spawns exactly one recorder and releasing twice in a row from
active spawns exactly one transcriber; in general a worker is spawned by an
event exactly when the event changes the recording state. -/
theorem key_controller_transitions :
    on_press Key.space true = (true, false) ∧
    on_release Key.space false = (false, false) ∧
    (∀ r, on_press Key.other r = (r, false) ∧ on_release Key.other r = (r, false)) ∧
    on_press Key.space false = (true, true) ∧
    on_release Key.space true = (false, true) ∧
    runEvents false [KeyEvent.press Key.space, KeyEvent.press Key.space]
      = (true, 1, 0) ∧
    runEvents true [KeyEvent.release Key.space, KeyEvent.release Key.space]
      = (false, 0, 1) ∧
    (∀ r e, ((handleEvent r e).2.1 = true ∨ (handleEvent r e).2.2 = true)
        ↔ (handleEvent r e).1 ≠ r) := by
  refine ⟨by decide, by decide, by decide, by decide, by decide, by decide, by decide, ?_⟩
  intro r e
  cases e with
  | press k => cases k <;> cases r <;> decide
  | release k => cases k <;> cases r <;> decide

/-- C8: if the transcriber step runs when no stream was ever started, it is a
no-op: it returns normally with no events emitted and the queue unchanged. -/
theorem stop_without_stream_is_noop (q : List Chunk) (svc : ServiceResult) :
    transcriber_thread none q svc = Except.ok ([], q) := rfl

/-- C9: the audio callback warns on standard error exactly when the delivered
status is non-empty, and pushes the delivered chunk to the frame buffer
exactly when the recording flag is set. -/
theorem callback_status_and_push (status : Option String) (rec : Bool)
    (q : List Chunk) (c : Chunk) :
    (∀ s, status = some s → Event.warnStatus s ∈ (callback status rec q c).1) ∧
    (status = none → (callback status rec q c).1 = []) ∧
    ((callback status rec q c).2 = push q c ↔ rec = true) ∧
    ((callback status rec q c).2 = q ↔ rec = false) := by
  refine ⟨?_, ?_, ?_, ?_⟩
  · intro s hs; subst hs; simp [callback]
  · intro hs; subst hs; simp [callback]
  · cases rec <;> simp [callback, push]
  · cases rec <;> simp [callback, push]

/-- C2: quantization of an in-range sample is within one quantization step of
the original after rescaling; out-of-range samples saturate at ±32767 (the
conversions of ±1), and in general quantization factors through clamping. -/
theorem quantize_within_one_step (x : ℚ) :
    (|x| ≤ 1 → |x - (quantize x : ℚ) / 32767| ≤ 1 / 32767) ∧
    (1 < x → quantize x = 32767) ∧
    (x < -1 → quantize x = -32767) ∧
    quantize x = quantize (clip x) := by
  refine ⟨?_, ?_, ?_, ?_⟩
  · intro h
    have hc : clip x = x := clip_eq_self x h
    have herr := truncToZero_error (x * 32767)
    have hq : quantize x = truncToZero (x * 32767) := by rw [quantize, hc]
    rw [hq]
    have heq : x - (truncToZero (x * 32767) : ℚ) / 32767
        = (x * 32767 - (truncToZero (x * 32767) : ℚ)) / 32767 := by ring
    rw [heq, abs_div, abs_of_pos (show (0 : ℚ) < 32767 by norm_num)]
    gcongr
  · intro h
    have hc : clip x = 1 := by
      unfold clip
      rw [max_eq_left (by linarith), min_eq_right (le_of_lt h)]
    rw [quantize, hc]
    unfold truncToZero
    rw [if_pos (by norm_num)]
    norm_num
  · intro h
    have hc : clip x = -1 := by
      unfold clip
      rw [max_eq_right (le_of_lt h), min_eq_left (by norm_num)]
    rw [quantize, hc]
    unfold truncToZero
    rw [if_neg (by norm_num)]
    rw [show ((-1 : ℚ) * 32767) = ((-32767 : ℤ) : ℚ) by norm_num, Int.ceil_intCast]
  · have h1 := clip_mem_Icc x
    have h2 : clip (clip x) = clip x := clip_eq_self _ (abs_le.mpr ⟨h1.1, h1.2⟩)
    rw [quantize, quantize, h2]

/-- C2 witness: concrete in-range sample 1/2, and out-of-range samples 2 and
-3 saturating to ±32767. -/
theorem quantize_within_one_step_witness :
    (|(1 : ℚ)/2| ≤ 1 ∧ |(1 : ℚ)/2 - (quantize (1/2) : ℚ) / 32767| ≤ 1 / 32767) ∧
    ((1 : ℚ) < 2 ∧ quantize 2 = 32767) ∧
    ((-3 : ℚ) < -1 ∧ quantize (-3) = -32767) :=
  ⟨⟨by rw [abs_le]; norm_num,
    (quantize_within_one_step (1/2)).1 (by rw [abs_le]; norm_num)⟩,
   ⟨by norm_num, (quantize_within_one_step 2).2.1 (by norm_num)⟩,
   ⟨by norm_num, (quantize_within_one_step (-3)).2.2.1 (by norm_num)⟩⟩

/-- C10: every quantized sample lies in the symmetric range [-32767, 32767];
the most negative 16-bit value -32768 is never produced. -/
theorem quantize_symmetric_range (x : ℚ) :
    -32767 ≤ quantize x ∧ quantize x ≤ 32767 ∧ quantize x ≠ -32768 := by
  unfold quantize
  have h1 := clip_mem_Icc x
  have habs : |clip x| ≤ 1 := abs_le.mpr ⟨h1.1, h1.2⟩
  have hb : |clip x * 32767| ≤ ((32767 : ℤ) : ℚ) := by
    rw [abs_mul, abs_of_pos (show (0 : ℚ) < 32767 by norm_num)]
    calc |clip x| * 32767 ≤ 1 * 32767 :=
          mul_le_mul_of_nonneg_right habs (by norm_num)
    _ = ((32767 : ℤ) : ℚ) := by norm_num
  obtain ⟨ha, hb2⟩ := truncToZero_bounds _ 32767 (by norm_num) hb
  exact ⟨ha, hb2, by omega⟩

/-- C4: when the remote transcription call fails, the error is caught inside
the transcriber (the thread body returns normally rather than propagating),
an OpenAI warning is emitted on standard error, and no transcript is
printed. -/
theorem service_error_caught (q : List Chunk) (e : String) (hq : q ≠ []) :
    ∃ evs, transcriber_thread (some ()) q (Except.error e) = Except.ok (evs, []) ∧
      Event.warnOpenAIError e ∈ evs ∧
      (∀ t, Event.printTranscript t ∉ evs) := by
  refine ⟨[Event.streamStopped, Event.printPeak (peak q.flatten),
      Event.writeWav (q.flatten.map quantize),
      Event.transcribeCall (q.flatten.map quantize),
      Event.warnOpenAIError e, Event.deleteWav], ?_, by simp, by simp⟩
  rw [transcriber_thread_nonempty q (Except.error e) hq]
  rfl

/-- C4 witness: a one-chunk session with a simulated network failure. -/
theorem service_error_caught_witness :
    ([[(1 : ℚ)/2]] : List Chunk) ≠ [] ∧
    ∃ evs, transcriber_thread (some ()) [[(1 : ℚ)/2]] (Except.error "network timeout")
        = Except.ok (evs, []) ∧
      Event.warnOpenAIError "network timeout" ∈ evs ∧
      (∀ t, Event.printTranscript t ∉ evs) :=
  ⟨by simp, service_error_caught [[(1 : ℚ)/2]] "network timeout" (by simp)⟩

/-- C5: every session that reaches the transcription step deletes the
temporary WAV file, on the success path and on every failure path of the
remote call, and the deletion is the final action of the thread. -/
theorem temp_wav_always_deleted (q : List Chunk) (svc : ServiceResult)
    (hq : q ≠ []) :
    ∃ evs q2, transcriber_thread (some ()) q svc = Except.ok (evs, q2) ∧
      Event.deleteWav ∈ evs ∧ evs.getLast? = some Event.deleteWav := by
  cases svc with
  | ok t =>
    refine ⟨_, _, transcriber_thread_nonempty q (Except.ok t) hq, by simp, ?_⟩
    simp
  | error e =>
    refine ⟨_, _, transcriber_thread_nonempty q (Except.error e) hq, by simp, ?_⟩
    simp

/-- C5 witness: a one-chunk session, on the success path and on the failure
path. -/
theorem temp_wav_always_deleted_witness :
    (([[(1 : ℚ)/2]] : List Chunk) ≠ [] ∧
      ∃ evs q2, transcriber_thread (some ()) [[(1 : ℚ)/2]] (Except.ok "hi")
          = Except.ok (evs, q2) ∧
        Event.deleteWav ∈ evs ∧ evs.getLast? = some Event.deleteWav) ∧
    (∃ evs q2, transcriber_thread (some ()) [[(1 : ℚ)/2]] (Except.error "boom")
          = Except.ok (evs, q2) ∧
        Event.deleteWav ∈ evs ∧ evs.getLast? = some Event.deleteWav) :=
  ⟨⟨by simp, temp_wav_always_deleted [[(1 : ℚ)/2]] (Except.ok "hi") (by simp)⟩,
   temp_wav_always_deleted [[(1 : ℚ)/2]] (Except.error "boom") (by simp)⟩

/-- Folding `max` over a nonempty constant list yields the constant, provided
the accumulator does not exceed it. -/
lemma foldl_max_replicate (x : ℚ) :
    ∀ (n : ℕ) (a : ℚ), a ≤ x → (List.replicate (n + 1) x).foldl max a = x := by
  intro n
  induction n with
  | zero => intro a ha; simp [List.replicate, max_eq_right ha]
  | succ m ih =>
    intro a ha
    rw [List.replicate_succ, List.foldl_cons]
    exact ih (max a x) (max_le ha le_rfl)

/-- The peak of a nonempty constant nonnegative waveform is that constant. -/
lemma peak_replicate (n : ℕ) (x : ℚ) (hn : n ≠ 0) (hx : 0 ≤ x) :
    peak (List.replicate n x) = x := by
  cases n with
  | zero => exact absurd rfl hn
  | succ m =>
    rw [peak, List.map_replicate, abs_of_nonneg hx]
    exact foldl_max_replicate x m 0 hx

/-- C7: a non-empty session produces a waveform whose sample count is the sum
of the drained chunks' sample counts, prints a peak that bounds every
absolute sample and is attained by one of them, writes a quantized payload of
the same sample count, invokes the transcription service exactly once with
that payload, and on a successful response prints the returned transcript. -/
theorem nonempty_session_end_to_end (q : List Chunk) (t : String) (hq : q ≠ []) :
    ∃ evs, transcriber_thread (some ()) q (Except.ok t) = Except.ok (evs, []) ∧
      q.flatten.length = (q.map List.length).sum ∧
      Event.printPeak (peak q.flatten) ∈ evs ∧
      (∀ x ∈ q.flatten, |x| ≤ peak q.flatten) ∧
      (q.flatten ≠ [] → ∃ x ∈ q.flatten, peak q.flatten = |x|) ∧
      evs.countP isTranscribeCall = 1 ∧
      Event.transcribeCall (q.flatten.map quantize) ∈ evs ∧
      (q.flatten.map quantize).length = q.flatten.length ∧
      Event.printTranscript t ∈ evs := by
  refine ⟨[Event.streamStopped, Event.printPeak (peak q.flatten),
      Event.writeWav (q.flatten.map quantize),
      Event.transcribeCall (q.flatten.map quantize),
      Event.printTranscript t, Event.deleteWav],
      ?_, List.length_flatten q, by simp, (peak_is_max q.flatten).1,
      (peak_is_max q.flatten).2, ?_, by simp, List.length_map _ _, by simp⟩
  · rw [transcriber_thread_nonempty q (Except.ok t) hq]
    rfl
  · simp [List.countP_cons, isTranscribeCall]

/-- C7 witness: three chunks of 1024 samples, all at amplitude 1/2, with a
successful service response "hello world"; the waveform has 3072 samples and
peak 1/2. -/
theorem nonempty_session_end_to_end_witness :
    (List.replicate 3 (List.replicate 1024 ((1 : ℚ)/2)) ≠ []) ∧
    (List.replicate 3 (List.replicate 1024 ((1 : ℚ)/2))).flatten.length = 3072 ∧
    peak (List.replicate 3 (List.replicate 1024 ((1 : ℚ)/2))).flatten = 1/2 ∧
    (∃ evs, transcriber_thread (some ())
        (List.replicate 3 (List.replicate 1024 ((1 : ℚ)/2))) (Except.ok "hello world")
        = Except.ok (evs, []) ∧
      (List.replicate 3 (List.replicate 1024 ((1 : ℚ)/2))).flatten.length
        = ((List.replicate 3 (List.replicate 1024 ((1 : ℚ)/2))).map List.length).sum ∧
      Event.printPeak (peak (List.replicate 3 (List.replicate 1024 ((1 : ℚ)/2))).flatten)
        ∈ evs ∧
      (∀ x ∈ (List.replicate 3 (List.replicate 1024 ((1 : ℚ)/2))).flatten,
        |x| ≤ peak (List.replicate 3 (List.replicate 1024 ((1 : ℚ)/2))).flatten) ∧
      ((List.replicate 3 (List.replicate 1024 ((1 : ℚ)/2))).flatten ≠ [] →
        ∃ x ∈ (List.replicate 3 (List.replicate 1024 ((1 : ℚ)/2))).flatten,
          peak (List.replicate 3 (List.replicate 1024 ((1 : ℚ)/2))).flatten = |x|) ∧
      evs.countP isTranscribeCall = 1 ∧
      Event.transcribeCall
        ((List.replicate 3 (List.replicate 1024 ((1 : ℚ)/2))).flatten.map quantize)
        ∈ evs ∧
      ((List.replicate 3 (List.replicate 1024 ((1 : ℚ)/2))).flatten.map quantize).length
        = (List.replicate 3 (List.replicate 1024 ((1 : ℚ)/2))).flatten.length ∧
      Event.printTranscript "hello world" ∈ evs) := by
  have h3 : List.replicate 3 (List.replicate 1024 ((1 : ℚ)/2))
      = [List.replicate 1024 ((1 : ℚ)/2), List.replicate 1024 ((1 : ℚ)/2),
         List.replicate 1024 ((1 : ℚ)/2)] := rfl
  have hflat : (List.replicate 3 (List.replicate 1024 ((1 : ℚ)/2))).flatten
      = List.replicate 3072 ((1 : ℚ)/2) := by
    rw [h3, List.flatten_cons, List.flatten_cons, List.flatten_cons,
      List.flatten_nil, List.append_nil, ← List.replicate_add, ← List.replicate_add]
  refine ⟨?_, ?_, ?_,
    nonempty_session_end_to_end (List.replicate 3 (List.replicate 1024 ((1 : ℚ)/2)))
      "hello world" ?_⟩
  · rw [h3]; exact List.cons_ne_nil _ _
  · rw [hflat, List.length_replicate]
  · rw [hflat, peak_replicate 3072 ((1 : ℚ)/2) (by norm_num) (by norm_num)]
  · rw [h3]; exact List.cons_ne_nil _ _

/-- C9 witness: with an input-overflow status delivered while recording, the
warning is emitted and the chunk is pushed. -/
theorem callback_status_and_push_witness :
    Event.warnStatus "input overflow"
      ∈ (callback (some "input overflow") true [] [(1 : ℚ)/2]).1 ∧
    (callback (some "input overflow") true [] [(1 : ℚ)/2]).2
      = push [] [(1 : ℚ)/2] :=
  ⟨(callback_status_and_push (some "input overflow") true [] _).1
      "input overflow" rfl,
   ((callback_status_and_push (some "input overflow") true [] _).2.2.1).mpr rfl⟩

/-- C3 witness: draining an empty queue under a would-be successful service
yields exactly the stop and no-audio report, with no WAV write, no service
call and no deletion. -/
theorem empty_session_no_transcription_witness :
    transcriber_thread (some ()) [] (Except.ok "hello")
      = Except.ok ([Event.streamStopped, Event.printNoAudio], []) ∧
    (Event.printNoAudio ∈ [Event.streamStopped, Event.printNoAudio] ∧
      (∀ s, Event.writeWav s ∉ [Event.streamStopped, Event.printNoAudio]) ∧
      (∀ s, Event.transcribeCall s ∉ [Event.streamStopped, Event.printNoAudio]) ∧
      Event.deleteWav ∉ [Event.streamStopped, Event.printNoAudio]) :=
  ⟨(empty_session_no_transcription (Except.ok "hello")).1,
   (empty_session_no_transcription (Except.ok "hello")).2
      [Event.streamStopped, Event.printNoAudio] [] rfl⟩

end Voice
